import Mathlib

/-!
Verification of the Day3 mixture-of-experts CIFAR-10 notebook
(`src/Day3/Day3_MoE/Day3_MoE.ipynb`).

The notebook builds a mixture of experts from four pretrained Keras
sub-models (a 10-class baseline, a binary artificial/natural gate, an
artificial expert and a natural expert) plus two trainable sub-gate
networks and a final `Lambda` layer that routes with `K.switch` on the
level-1 gate and blends per class inside the selected branch.

This file is a shallow embedding of that notebook: tensor values are
rationals, a single example's activation vector is a function out of
`Fin n`, filesystem state (for checkpoint loading) is an explicit list
of files with modification times, and Keras layer/trainability state is
an explicit list of layer records.
-/

/-- Number of CIFAR-10 classes; notebook cell `orig_classes = 10`. -/
abbrev orig_classes : Nat := 10

/-- Number of level-1 gate classes; notebook cell `gate0_classes = 2`. -/
abbrev gate0_classes : Nat := 2

/-- A length-`n` activation vector for a single example, rational-valued. -/
abbrev Vec (n : Nat) := Fin n → ℚ

/-- A sub-gate tensor of shape `(orig_classes, 2)` for a single example. -/
abbrev SubGateTensor := Fin orig_classes → Fin 2 → ℚ

/-- The final `Reshape((orig_classes, numExperts))` step of `subGate` with
`numExperts = 2`: Keras reshapes row-major, so entry `(c, e)` of the reshaped
`(10, 2)` tensor is entry `c * 2 + e` of the flat 20-unit softmax output. -/
def subGateReshape (s : Vec (orig_classes * 2)) : SubGateTensor :=
  fun c e => s ⟨c.val * 2 + e.val, by
    have hc := c.isLt
    have he := e.isLt
    simp only [orig_classes] at hc ⊢
    omega⟩

/-- Per-example semantics of `subGateLambda`: the notebook's
`Lambda(lambda gx: (gx[0]*gx[2][:,:,0]) + (gx[1]*gx[2][:,:,1]))` applied to
`[base, expert, subgate]`, i.e. per class `c` the blend
`base[c] * subgate[c,0] + expert[c] * subgate[c,1]`. -/
def subGateLambda (base expert : Vec orig_classes) (subgate : SubGateTensor) :
    Vec orig_classes :=
  fun c => base c * subgate c 0 + expert c * subgate c 1

/-- Per-example semantics of the notebook's final output `Lambda`:
`K.switch(gx[1][:,0] > gx[1][:,1], subGateLambda(gx[0], gx[2], gx[4]),
subGateLambda(gx[0], gx[3], gx[5]))` with
`gx = [baseVGG, gate0VGG, artificialVGG, naturalVGG, artGate, natureGate]`. -/
def moeOutput (baseVGG : Vec orig_classes) (gate0VGG : Vec gate0_classes)
    (artificialVGG naturalVGG : Vec orig_classes)
    (artGate natureGate : SubGateTensor) : Vec orig_classes :=
  if gate0VGG 0 > gate0VGG 1 then
    subGateLambda baseVGG artificialVGG artGate
  else
    subGateLambda baseVGG naturalVGG natureGate

/-- A concrete all-zero class vector, used to instantiate theorems. -/
def vZero : Vec orig_classes := fun _ => 0

/-- A concrete all-one class vector. -/
def vOne : Vec orig_classes := fun _ => 1

/-- A concrete all-two class vector. -/
def vTwo : Vec orig_classes := fun _ => 2

/-- A concrete level-1 gate output that prefers the artificial class. -/
def cGateArt : Vec gate0_classes := fun i => if i = 0 then 1 else 0

/-- A concrete level-1 gate output that prefers the natural class. -/
def cGateNat : Vec gate0_classes := fun i => if i = 0 then 0 else 1

/-- A concrete flat 20-unit sub-gate activation vector. -/
def cFlat : Vec (orig_classes * 2) := fun i => (i.val : ℚ)

/-- A concrete sub-gate tensor giving each side weight 1. -/
def cOne : SubGateTensor := fun _ _ => 1

/-- C1: the mixture's final output layer hard-routes at the first gating
level: when the level-1 gate's artificial output strictly exceeds its natural
output the prediction is the artificial-branch blend
`subGateLambda base artificial artGate`, otherwise it is the natural-branch
blend `subGateLambda base natural natureGate`; and in either case the
unselected expert's output has no influence on the prediction. -/
theorem moe_hard_routing (base : Vec orig_classes) (g0 : Vec gate0_classes)
    (art nat : Vec orig_classes) (aG nG : SubGateTensor) :
    (g0 0 > g0 1 → moeOutput base g0 art nat aG nG = subGateLambda base art aG) ∧
    (¬ g0 0 > g0 1 → moeOutput base g0 art nat aG nG = subGateLambda base nat nG) ∧
    (g0 0 > g0 1 → ∀ nat2 : Vec orig_classes,
      moeOutput base g0 art nat2 aG nG = subGateLambda base art aG) ∧
    (¬ g0 0 > g0 1 → ∀ art2 : Vec orig_classes,
      moeOutput base g0 art2 nat aG nG = subGateLambda base nat nG) := by
  by_cases h : g0 0 > g0 1 <;>
    simp [moeOutput, h]

/-- Witness for C1 at concrete inputs: the gate preferring the artificial
class routes to the artificial blend, and there the natural expert's output
is irrelevant. -/
theorem moe_hard_routing_witness :
    moeOutput vZero cGateArt vOne vTwo cOne cOne = subGateLambda vZero vOne cOne ∧
    moeOutput vZero cGateArt vOne vZero cOne cOne = subGateLambda vZero vOne cOne :=
  ⟨(moe_hard_routing vZero cGateArt vOne vTwo cOne cOne).1 (by decide),
   (moe_hard_routing vZero cGateArt vOne vTwo cOne cOne).2.2.1 (by decide) vZero⟩

/-- C2: inside the selected branch the level-2 blending is the learned soft
combination: for every class index `c`, the branch output is
`base[c] * subgate[c,0] + expert[c] * subgate[c,1]`, where the `(10, 2)`
sub-gate tensor arises from the sub-gate network's flat 20-unit softmax
output by the row-major `Reshape((10, 2))`, so that `subgate[c,e]` is flat
entry `c * 2 + e`. -/
theorem subgate_soft_blend (base : Vec orig_classes) (g0 : Vec gate0_classes)
    (art nat : Vec orig_classes) (sA sN : Vec (orig_classes * 2))
    (c : Fin orig_classes) :
    (g0 0 > g0 1 →
      moeOutput base g0 art nat (subGateReshape sA) (subGateReshape sN) c
        = base c * subGateReshape sA c 0 + art c * subGateReshape sA c 1) ∧
    (¬ g0 0 > g0 1 →
      moeOutput base g0 art nat (subGateReshape sA) (subGateReshape sN) c
        = base c * subGateReshape sN c 0 + nat c * subGateReshape sN c 1) ∧
    (∀ (e : Fin 2) (i : Fin (orig_classes * 2)), (i : Nat) = c.val * 2 + e.val →
      subGateReshape sA c e = sA i) := by
  refine ⟨fun h => ?_, fun h => ?_, fun e i hi => ?_⟩
  · simp [moeOutput, subGateLambda, h]
  · simp [moeOutput, subGateLambda, h]
  · exact congrArg sA (Fin.ext hi.symm)

/-- Witness for C2 at concrete inputs: both branch blends evaluated through
the theorem, and the reshape of flat entry 7 appearing as tensor entry
`(3, 1)`. -/
theorem subgate_soft_blend_witness :
    (moeOutput vZero cGateArt vOne vTwo (subGateReshape cFlat) (subGateReshape cFlat) 0
      = vZero 0 * subGateReshape cFlat 0 0 + vOne 0 * subGateReshape cFlat 0 1) ∧
    (moeOutput vZero cGateNat vOne vTwo (subGateReshape cFlat) (subGateReshape cFlat) 0
      = vZero 0 * subGateReshape cFlat 0 0 + vTwo 0 * subGateReshape cFlat 0 1) ∧
    subGateReshape cFlat 3 1 = cFlat 7 :=
  ⟨(subgate_soft_blend vZero cGateArt vOne vTwo cFlat cFlat 0).1 (by decide),
   (subgate_soft_blend vZero cGateNat vOne vTwo cFlat cFlat 0).2.1 (by decide),
   (subgate_soft_blend vZero cGateArt vOne vTwo cFlat cFlat 3).2.2 1 7 (by decide)⟩

/-- C3: the mixture layer combines all four sub-models' outputs into one
10-class prediction: its output is a length-10 class vector (an element of
`Vec orig_classes`), and each of the four sub-model outputs genuinely enters
the computation: for each of them there are inputs where changing only that
sub-model's output changes the mixture output. -/
theorem moe_combines_all_four :
    (∃ b b2 : Vec orig_classes, ∃ g : Vec gate0_classes, ∃ a n : Vec orig_classes,
      ∃ aG nG : SubGateTensor, moeOutput b g a n aG nG ≠ moeOutput b2 g a n aG nG) ∧
    (∃ b : Vec orig_classes, ∃ g g2 : Vec gate0_classes, ∃ a n : Vec orig_classes,
      ∃ aG nG : SubGateTensor, moeOutput b g a n aG nG ≠ moeOutput b g2 a n aG nG) ∧
    (∃ b : Vec orig_classes, ∃ g : Vec gate0_classes, ∃ a a2 n : Vec orig_classes,
      ∃ aG nG : SubGateTensor, moeOutput b g a n aG nG ≠ moeOutput b g a2 n aG nG) ∧
    (∃ b : Vec orig_classes, ∃ g : Vec gate0_classes, ∃ a n n2 : Vec orig_classes,
      ∃ aG nG : SubGateTensor, moeOutput b g a n aG nG ≠ moeOutput b g a n2 aG nG) := by
  refine ⟨⟨vZero, vOne, cGateArt, vOne, vTwo, cOne, cOne, fun h => ?_⟩,
          ⟨vZero, cGateArt, cGateNat, vOne, vTwo, cOne, cOne, fun h => ?_⟩,
          ⟨vZero, cGateArt, vOne, vTwo, vZero, cOne, cOne, fun h => ?_⟩,
          ⟨vZero, cGateNat, vZero, vOne, vTwo, cOne, cOne, fun h => ?_⟩⟩ <;>
    · have h0 := congrFun h 0
      norm_num [moeOutput, subGateLambda, cGateArt, cGateNat,
        vZero, vOne, vTwo, cOne] at h0

/-- The artificial label set, the notebook's literal `[0, 1, 8, 9]`. -/
def artificialLabels : List Nat := [0, 1, 8, 9]

/-- The natural label set, the notebook's literal `[2, 3, 4, 5, 6, 7]`. -/
def naturalLabels : List Nat := [2, 3, 4, 5, 6, 7]

/-- The notebook's index comprehension
`[i for i in range(len(y)) if y[i] in [0, 1, 8, 9]]`, used as `artTrain` on
the training labels and as `artTest` on the test labels. -/
def artTrain (y : List Nat) : List Nat :=
  (List.range y.length).filter fun i => decide (y.getD i 0 ∈ artificialLabels)

/-- The notebook's index comprehension
`[i for i in range(len(y)) if y[i] in [2, 3, 4, 5, 6, 7]]`, used as
`natureTrain` on the training labels and as `natureTest` on the test labels. -/
def natureTrain (y : List Nat) : List Nat :=
  (List.range y.length).filter fun i => decide (y.getD i 0 ∈ naturalLabels)

/-- NumPy fancy indexing `a[idxs]` for an in-range index list, as in
`x_trainArt = x_train[artTrain]` and `y_trainArt = y_train[artTrain]`. -/
def selectIdx {α : Type} (xs : List α) (idxs : List Nat) : List α :=
  idxs.filterMap fun i => xs.get? i

/-- A concrete sample label list used to instantiate witnesses. -/
def ySample : List Nat := [3, 0, 8, 2, 9, 1]

/-- C5: the experts are domain-specialized by their training data: the index
list `artTrain` holds exactly the indices whose label is in `{0, 1, 8, 9}`
and `natureTrain` exactly those whose label is in `{2, 3, 4, 5, 6, 7}`, and
consequently every label selected into an expert's training set lies in that
expert's domain: no example outside its domain is used. -/
theorem expert_training_data (y : List Nat) :
    (∀ i, i ∈ artTrain y ↔ i < y.length ∧ y.getD i 0 ∈ artificialLabels) ∧
    (∀ i, i ∈ natureTrain y ↔ i < y.length ∧ y.getD i 0 ∈ naturalLabels) ∧
    (∀ l, l ∈ selectIdx y (artTrain y) → l ∈ artificialLabels) ∧
    (∀ l, l ∈ selectIdx y (natureTrain y) → l ∈ naturalLabels) := by
  have hmem : ∀ (L : List Nat) (l : Nat),
      l ∈ (List.range y.length).filter (fun i => decide (y.getD i 0 ∈ L)) ↔
      l < y.length ∧ y.getD l 0 ∈ L := by
    intro L l
    simp [List.mem_filter, List.mem_range]
  refine ⟨hmem artificialLabels, hmem naturalLabels, fun l hl => ?_, fun l hl => ?_⟩
  · rcases List.mem_filterMap.mp hl with ⟨i, hi, hget⟩
    rcases (hmem artificialLabels i).mp hi with ⟨hlen, hdom⟩
    have : y.getD i 0 = l := by
      simp [List.getD_eq_getElem?_getD, List.get?_eq_getElem?] at hdom hget ⊢
      simp [hget]
    rwa [this] at hdom
  · rcases List.mem_filterMap.mp hl with ⟨i, hi, hget⟩
    rcases (hmem naturalLabels i).mp hi with ⟨hlen, hdom⟩
    have : y.getD i 0 = l := by
      simp [List.getD_eq_getElem?_getD, List.get?_eq_getElem?] at hdom hget ⊢
      simp [hget]
    rwa [this] at hdom

/-- Witness for C5 on a concrete label list: index 1 (label 0) is in the
artificial index list, and a label drawn from each expert's selected
training labels lies in that expert's domain. -/
theorem expert_training_data_witness :
    (1 < ySample.length ∧ ySample.getD 1 0 ∈ artificialLabels) ∧
    8 ∈ artificialLabels ∧ 3 ∈ naturalLabels :=
  ⟨(expert_training_data ySample).1 1 |>.mp (by decide),
   (expert_training_data ySample).2.2.1 8 (by decide),
   (expert_training_data ySample).2.2.2 3 (by decide)⟩

/-- C9: for every label list the artificial and natural index lists are
disjoint, and when all labels are below 10 every index belongs to one of the
two lists, because the membership tests use the complementary label sets
`{0, 1, 8, 9}` and `{2, 3, 4, 5, 6, 7}`. -/
theorem art_nature_partition (y : List Nat) (h10 : ∀ l ∈ y, l < 10) :
    (∀ i, ¬ (i ∈ artTrain y ∧ i ∈ natureTrain y)) ∧
    (∀ i, i < y.length → i ∈ artTrain y ∨ i ∈ natureTrain y) := by
  obtain ⟨hart, hnat, -, -⟩ := expert_training_data y
  constructor
  · rintro i ⟨hiA, hiN⟩
    rcases (hart i).mp hiA with ⟨-, hA⟩
    rcases (hnat i).mp hiN with ⟨-, hN⟩
    simp [artificialLabels, naturalLabels] at hA hN
    omega
  · intro i hi
    have hmem : y.getD i 0 ∈ y := by
      have := List.getD_eq_getElem?_getD y i 0
      rw [this, List.getElem?_eq_getElem hi]
      exact List.getElem_mem hi
    have hlt := h10 _ hmem
    by_cases hA : y.getD i 0 ∈ artificialLabels
    · exact Or.inl ((hart i).mpr ⟨hi, hA⟩)
    · refine Or.inr ((hnat i).mpr ⟨hi, ?_⟩)
      revert hA hlt
      generalize y.getD i 0 = l
      intro hlt hA
      simp [artificialLabels] at hA
      simp [naturalLabels]
      omega

/-- Witness for C9 at a concrete label list: no index is in both lists, and
index 0 is in one of them. -/
theorem art_nature_partition_witness :
    ¬ (0 ∈ artTrain ySample ∧ 0 ∈ natureTrain ySample) ∧
    (0 ∈ artTrain ySample ∨ 0 ∈ natureTrain ySample) :=
  ⟨(art_nature_partition ySample (by decide)).1 0,
   (art_nature_partition ySample (by decide)).2 0 (by decide)⟩

/-- The notebook's cell-27 comprehension `0 if i in [0, 1, 8, 9] else 1`,
the ground-truth category for the level-1 gate. -/
def gateLabel (l : Nat) : Nat := if l ∈ [0, 1, 8, 9] then 0 else 1

/-- Semantics of `keras.utils.to_categorical(l, numClasses)` for one label:
a one-hot row of length `numClasses`. -/
def to_categorical (numClasses : Nat) (l : Nat) : List ℚ :=
  (List.range numClasses).map fun c => if c = l then 1 else 0

/-- Cell 27 composed: the gate ground truth for a label list, one-hot encoded
into 2 classes (`y_trainG0` on the training labels, `y_testG0` on the test
labels). -/
def y_G0 (y : List Nat) : List (List ℚ) :=
  y.map fun l => to_categorical 2 (gateLabel l)

/-- C7: the level-1 gate's training label is derived deterministically from
the 10-class label: category 0 for labels in `{0, 1, 8, 9}` and category 1
for every other label, then one-hot encoded into 2 classes, so the encoded
row is `[1, 0]` exactly on artificial labels and `[0, 1]` otherwise. -/
theorem gate_ground_truth (y : List Nat) :
    (∀ l, l ∈ [0, 1, 8, 9] → gateLabel l = 0) ∧
    (∀ l, l ∉ [0, 1, 8, 9] → gateLabel l = 1) ∧
    y_G0 y = y.map fun l => if l ∈ [0, 1, 8, 9] then [1, 0] else [0, 1] := by
  refine ⟨fun l hl => by simp [gateLabel, hl], fun l hl => by simp [gateLabel, hl], ?_⟩
  unfold y_G0
  refine List.map_congr_left fun l _ => ?_
  by_cases hl : l ∈ [0, 1, 8, 9] <;>
    simp [gateLabel, to_categorical, hl, List.range_succ]

/-- Witness for C7 at concrete labels: label 8 is gated to category 0, label
5 to category 1, and a concrete label list one-hot encodes as stated. -/
theorem gate_ground_truth_witness :
    gateLabel 8 = 0 ∧ gateLabel 5 = 1 ∧ y_G0 [3, 0] = [[0, 1], [1, 0]] :=
  ⟨(gate_ground_truth []).1 8 (by decide),
   (gate_ground_truth []).2.1 5 (by decide),
   by rw [(gate_ground_truth [3, 0]).2.2]; decide⟩

/-- A Keras layer as the freezing and training logic sees it: its name, its
`trainable` flag and its weight blob (abstracted to one rational). -/
structure KLayer where
  lname : String
  trainable : Bool
  weights : ℚ
deriving DecidableEq

/-- Cell 51's freeze loop `for l in m.layers: l.trainable = False` applied to
one model's layer list. -/
def freezeLayers (ls : List KLayer) : List KLayer :=
  ls.map fun l => { l with trainable := false }

/-- One optimizer step of Keras `model.fit`: the weights of exactly the
trainable layers are replaced by some updated value, non-trainable layers are
left untouched. -/
def fitUpdate (upd : String → ℚ → ℚ) (ls : List KLayer) : List KLayer :=
  ls.map fun l =>
    if l.trainable then { l with weights := upd l.lname l.weights } else l

/-- The five layers created by one `subGate` call (Flatten, Dense-relu,
Dropout, Dense-softmax, Reshape); a newly created Keras layer is trainable. -/
def subGateLayers (base : String) (w : Fin 5 → ℚ) : List KLayer :=
  [⟨base ++ "0", true, w 0⟩, ⟨base ++ "1", true, w 1⟩, ⟨base ++ "2", true, w 2⟩,
   ⟨base ++ "3", true, w 3⟩, ⟨base ++ "4", true, w 4⟩]

/-- The final output `Lambda` layer of the mixture model: trainable flag kept
at its default `True`, no weights (modelled as weight 0). -/
def outputLambdaLayer : KLayer := ⟨"moeOutputLambda", true, 0⟩

/-- The mixture model's layer list as assembled by cells 51 and 54-58: the
four pretrained sub-models' layers after the freeze loops, the two newly
created sub-gate networks, and the final `Lambda` layer. -/
def moeLayers (baseL gate0L artL natL : List KLayer) (wA wN : Fin 5 → ℚ) :
    List KLayer :=
  freezeLayers baseL ++ freezeLayers gate0L ++ freezeLayers artL ++
    freezeLayers natL ++ subGateLayers "artExpertGate" wA ++
    subGateLayers "natureExpertGate" wN ++ [outputLambdaLayer]

/-- Freezing does not touch weights. -/
theorem freezeLayers_weights (ls : List KLayer) :
    (freezeLayers ls).map KLayer.weights = ls.map KLayer.weights := by
  simp [freezeLayers, List.map_map, Function.comp]

/-- A fit step is the identity on a list of non-trainable layers. -/
theorem fitUpdate_of_frozen (upd : String → ℚ → ℚ) (ls : List KLayer)
    (h : ∀ l ∈ ls, l.trainable = false) : fitUpdate upd ls = ls := by
  have hmap : ls.map (fun l =>
      if l.trainable then { l with weights := upd l.lname l.weights } else l) =
      ls.map id :=
    List.map_congr_left fun l hl => by simp [h l hl]
  rw [fitUpdate, hmap, List.map_id]

/-- A fit step preserves every layer's trainable flag. -/
theorem fitUpdate_trainable (upd : String → ℚ → ℚ) (ls : List KLayer) :
    (fitUpdate upd ls).map KLayer.trainable = ls.map KLayer.trainable := by
  unfold fitUpdate
  rw [List.map_map]
  refine List.map_congr_left fun l _ => ?_
  by_cases h : l.trainable <;> simp [h]

/-- Iterating fit steps never changes the first `k` layers when those are all
non-trainable. -/
theorem fitUpdate_iterate_take (upd : String → ℚ → ℚ) (k : Nat) :
    ∀ (n : Nat) (ls : List KLayer), (∀ l ∈ ls.take k, l.trainable = false) →
      ((fitUpdate upd)^[n] ls).take k = ls.take k := by
  intro n
  induction n with
  | zero => intro ls _; rfl
  | succ m ih =>
    intro ls h
    rw [Function.iterate_succ_apply]
    have hstep : (fitUpdate upd ls).take k = ls.take k := by
      unfold fitUpdate
      rw [← List.map_take]
      exact fitUpdate_of_frozen upd (ls.take k) h
    rw [ih (fitUpdate upd ls) (by rw [hstep]; exact h), hstep]

/-- C4: before the mixture is assembled every layer of the four pretrained
sub-models is frozen, so any number of fit steps of the mixture's training
leaves the whole frozen prefix (hence all four sub-models' weights)
unchanged, freezing itself preserved those pretrained weights, and in the
assembled mixture exactly the ten sub-gate layers and the final `Lambda`
layer carry a `True` trainable flag. -/
theorem moe_freeze_frame (upd : String → ℚ → ℚ)
    (baseL gate0L artL natL : List KLayer) (wA wN : Fin 5 → ℚ) :
    (∀ n : Nat,
      ((fitUpdate upd)^[n] (moeLayers baseL gate0L artL natL wA wN)).take
          (baseL.length + gate0L.length + artL.length + natL.length) =
        (moeLayers baseL gate0L artL natL wA wN).take
          (baseL.length + gate0L.length + artL.length + natL.length)) ∧
    (moeLayers baseL gate0L artL natL wA wN).take
        (baseL.length + gate0L.length + artL.length + natL.length) =
      freezeLayers baseL ++ freezeLayers gate0L ++ freezeLayers artL ++
        freezeLayers natL ∧
    (freezeLayers baseL ++ freezeLayers gate0L ++ freezeLayers artL ++
        freezeLayers natL).map KLayer.weights =
      (baseL ++ gate0L ++ artL ++ natL).map KLayer.weights ∧
    (moeLayers baseL gate0L artL natL wA wN).map KLayer.trainable =
      List.replicate (baseL.length + gate0L.length + artL.length + natL.length)
          false ++ List.replicate 11 true := by
  have hlen : ∀ ls : List KLayer, (freezeLayers ls).length = ls.length := by
    intro ls; simp [freezeLayers]
  have htake : (moeLayers baseL gate0L artL natL wA wN).take
      (baseL.length + gate0L.length + artL.length + natL.length) =
      freezeLayers baseL ++ freezeLayers gate0L ++ freezeLayers artL ++
        freezeLayers natL := by
    have hsplit : moeLayers baseL gate0L artL natL wA wN =
        (freezeLayers baseL ++ freezeLayers gate0L ++ freezeLayers artL ++
          freezeLayers natL) ++
        (subGateLayers "artExpertGate" wA ++ subGateLayers "natureExpertGate" wN ++
          [outputLambdaLayer]) := by
      simp [moeLayers, List.append_assoc]
    rw [hsplit, List.take_left' (by simp [hlen]; omega)]
  have hfrozenmap : ∀ ls : List KLayer, ∀ l ∈ freezeLayers ls,
      l.trainable = false := by
    intro ls l hl
    simp [freezeLayers] at hl
    obtain ⟨a, -, rfl⟩ := hl
    rfl
  have hfrozen : ∀ l ∈ (moeLayers baseL gate0L artL natL wA wN).take
      (baseL.length + gate0L.length + artL.length + natL.length),
      l.trainable = false := by
    rw [htake]
    intro l hl
    simp only [List.mem_append] at hl
    rcases hl with ((hl | hl) | hl) | hl
    · exact hfrozenmap baseL l hl
    · exact hfrozenmap gate0L l hl
    · exact hfrozenmap artL l hl
    · exact hfrozenmap natL l hl
  refine ⟨fun n => fitUpdate_iterate_take upd _ n _ hfrozen, htake, ?_, ?_⟩
  · simp [freezeLayers_weights]
  · unfold moeLayers
    simp only [List.map_append]
    have hrep : ∀ ls : List KLayer, (freezeLayers ls).map KLayer.trainable =
        List.replicate ls.length false := by
      intro ls
      induction ls with
      | nil => rfl
      | cons a t ih => simp [freezeLayers, List.replicate_succ] at ih ⊢; exact ih
    have hsg : ∀ (s : String) (w : Fin 5 → ℚ),
        (subGateLayers s w).map KLayer.trainable = List.replicate 5 true :=
      fun s w => rfl
    have hol : List.map KLayer.trainable [outputLambdaLayer] =
        List.replicate 1 true := rfl
    have hsum : List.replicate
        (baseL.length + gate0L.length + artL.length + natL.length)
        (false : Bool) =
        List.replicate baseL.length false ++ List.replicate gate0L.length false ++
          List.replicate artL.length false ++ List.replicate natL.length false := by
      rw [List.replicate_add, List.replicate_add, List.replicate_add]
    have h11 : List.replicate 11 (true : Bool) =
        List.replicate 5 true ++ List.replicate 5 true ++ List.replicate 1 true :=
      rfl
    rw [hrep, hrep, hrep, hrep, hsg, hsg, hol, hsum, h11]
    simp [List.append_assoc]

/-- The five training phases the notebook runs via `model.fit`. -/
inductive TrainStep
  | baseStep
  | gate0Step
  | artificialStep
  | naturalStep
  | mixtureStep
deriving DecidableEq, Fintype

/-- The notebook's straight-line execution order of its five `fit` calls
(cells 24, 30, 39, 46 and 62 in document order); a notebook run top to
bottom starts each cell only after the previous one finished. -/
def fitCallOrder : List TrainStep :=
  [.baseStep, .gate0Step, .artificialStep, .naturalStep, .mixtureStep]

/-- C6: the networks are trained sequentially in the order baseline, level-1
gate, artificial expert, natural expert, mixture: in the notebook's trace of
`fit` calls each phase occurs exactly once and the phases occur in exactly
that order, so each later training step begins only after the previous one
finished. -/
theorem training_order_sequential :
    fitCallOrder.indexOf TrainStep.baseStep < fitCallOrder.indexOf TrainStep.gate0Step ∧
    fitCallOrder.indexOf TrainStep.gate0Step <
      fitCallOrder.indexOf TrainStep.artificialStep ∧
    fitCallOrder.indexOf TrainStep.artificialStep <
      fitCallOrder.indexOf TrainStep.naturalStep ∧
    fitCallOrder.indexOf TrainStep.naturalStep <
      fitCallOrder.indexOf TrainStep.mixtureStep ∧
    (∀ s : TrainStep, fitCallOrder.count s = 1) := by
  decide

/-- A checkpoint file as `getNewestModel` sees it: its path (an element of
`glob(os.path.join(dirname, '*'))`) and its `os.path.getmtime` value. -/
structure FSFile where
  path : String
  mtime : Nat
deriving DecidableEq

/-- Shallow embedding of the notebook's `getNewestModel(model, dirname)`:
the directory listing is the explicit list `files`, and
`model.load_weights(p)` is the abstract `load p`. When the listing is empty
the model is returned as is; otherwise the listing is sorted ascending by
modification time (`sorted(files, key=lambda files: files[1])`), the last
element is taken (`[-1]`) and its weights are loaded. -/
def getNewestModel {M : Type} (model : M) (files : List FSFile)
    (load : String → M → M) : M :=
  if files.length = 0 then model
  else
    load ((files.mergeSort fun a b =>
      decide (a.mtime ≤ b.mtime)).getLastD ⟨"", 0⟩).path model

/-- The default-valued last element of a list sits in the list consed onto
the default. -/
theorem getLastD_mem_cons (l : List FSFile) (d : FSFile) :
    l.getLastD d ∈ d :: l := by
  induction l generalizing d with
  | nil => exact List.mem_cons_self d []
  | cons a t ih =>
    rw [List.getLastD_cons]
    rcases List.mem_cons.mp (ih a) with h | h
    · rw [h]
      exact List.mem_cons_of_mem d (List.mem_cons_self a t)
    · exact List.mem_cons_of_mem d (List.mem_cons_of_mem a h)

/-- The default-valued last element of a non-empty list is a member. -/
theorem getLastD_mem (l : List FSFile) (d : FSFile) (h : l ≠ []) :
    l.getLastD d ∈ l := by
  cases l with
  | nil => exact absurd rfl h
  | cons a t =>
    rw [List.getLastD_cons]
    rcases List.mem_cons.mp (getLastD_mem_cons t a) with h2 | h2
    · rw [h2]
      exact List.mem_cons_self a t
    · exact List.mem_cons_of_mem a h2

/-- In a list sorted ascending by mtime, every element's mtime is at most the
last element's. -/
theorem sorted_mtime_le_getLastD (l : List FSFile) (d : FSFile)
    (hp : l.Pairwise fun a b => a.mtime ≤ b.mtime) :
    ∀ x ∈ l, x.mtime ≤ (l.getLastD d).mtime := by
  induction l generalizing d with
  | nil => intro x hx; cases hx
  | cons a t ih =>
    intro x hx
    rw [List.getLastD_cons]
    rcases List.mem_cons.mp hx with rfl | hx2
    · rcases List.mem_cons.mp (getLastD_mem_cons t x) with h | h
      · rw [h]
      · exact (List.pairwise_cons.mp hp).1 _ h
    · exact ih a (List.pairwise_cons.mp hp).2 x hx2

/-- C8: `getNewestModel` returns the model unchanged when the directory
listing is empty; when it is non-empty it loads the weights of a listed file
whose modification time is greatest and returns the result. -/
theorem getNewestModel_spec {M : Type} (model : M) (files : List FSFile)
    (load : String → M → M) :
    (files = [] → getNewestModel model files load = model) ∧
    (files ≠ [] → ∃ f ∈ files,
      getNewestModel model files load = load f.path model ∧
      ∀ g ∈ files, g.mtime ≤ f.mtime) := by
  constructor
  · rintro rfl
    rfl
  · intro hne
    have hperm := List.mergeSort_perm files fun a b => decide (a.mtime ≤ b.mtime)
    have hsorted : (files.mergeSort fun a b =>
        decide (a.mtime ≤ b.mtime)).Pairwise fun a b => a.mtime ≤ b.mtime := by
      have := @List.sorted_mergeSort FSFile
        (fun a b : FSFile => decide (a.mtime ≤ b.mtime))
        (fun a b c hab hbc => by
          simp only [decide_eq_true_eq] at hab hbc ⊢
          omega)
        (fun a b => by
          simp only [Bool.or_eq_true, decide_eq_true_eq]
          omega)
        files
      exact this.imp fun h => by simpa using h
    set L := files.mergeSort fun a b => decide (a.mtime ≤ b.mtime) with hL
    have hLne : L ≠ [] := by
      intro h
      apply hne
      have := hperm.length_eq
      rw [h] at this
      exact List.length_eq_zero.mp this.symm
    have hfmem : L.getLastD ⟨"", 0⟩ ∈ L := getLastD_mem L ⟨"", 0⟩ hLne
    refine ⟨L.getLastD ⟨"", 0⟩, hperm.mem_iff.mp hfmem, ?_, ?_⟩
    · unfold getNewestModel
      rw [if_neg (by simpa [List.length_eq_zero] using hne)]
    · intro g hg
      exact sorted_mtime_le_getLastD L ⟨"", 0⟩ hsorted g (hperm.mem_iff.mpr hg)

/-- A concrete directory listing used to instantiate the C8 spec. -/
def filesW : List FSFile := [⟨"a", 5⟩, ⟨"b", 9⟩, ⟨"c", 7⟩]

/-- A concrete weight-loading action on a one-number model state. -/
def loadW : String → ℚ → ℚ := fun p m => if p = "b" then m + 1 else m

/-- Witness for C8: on an empty listing the model comes back unchanged, and
on a concrete three-file listing a file of maximal mtime is loaded. -/
theorem getNewestModel_spec_witness :
    getNewestModel (0 : ℚ) [] loadW = 0 ∧
    (∃ f ∈ filesW, getNewestModel (0 : ℚ) filesW loadW = loadW f.path 0 ∧
      ∀ g ∈ filesW, g.mtime ≤ f.mtime) :=
  ⟨(getNewestModel_spec (0 : ℚ) [] loadW).1 rfl,
   (getNewestModel_spec (0 : ℚ) filesW loadW).2 (by simp [filesW])⟩

/-- A Keras layer constructor as it appears in the notebook's VGG builders,
with the hyperparameters that matter to output shape and activation. -/
inductive LayerSpec
  | conv2D (filters : Nat) (activation : String)
  | maxPooling2D
  | dropout (rate : ℚ)
  | flattenL
  | dense (units : Nat) (activation : String)
deriving DecidableEq

/-- Cell 17's `simpleVGG(cifarInput, num_classes)`: the layer sequence of the
small VGG-like model, ending in `Dense(num_classes, activation='softmax')`. -/
def simpleVGG (num_classes : Nat) : List LayerSpec :=
  [.conv2D 32 "relu", .conv2D 32 "relu", .maxPooling2D, .dropout (1/4),
   .conv2D 64 "relu", .conv2D 64 "relu", .maxPooling2D, .dropout (1/4),
   .flattenL, .dense 512 "relu", .dropout (1/2), .dense num_classes "softmax"]

/-- Cell 18's `fatVGG(cifarInput, num_classes)`: the layer sequence of the
large VGG-like model, ending in `Dense(num_classes, activation='softmax')`. -/
def fatVGG (num_classes : Nat) : List LayerSpec :=
  [.conv2D 32 "relu", .conv2D 32 "relu", .maxPooling2D, .dropout (1/4),
   .conv2D 64 "relu", .conv2D 64 "relu", .maxPooling2D, .dropout (1/4),
   .conv2D 128 "relu", .conv2D 128 "relu", .conv2D 128 "relu", .maxPooling2D,
   .dropout (1/4), .flattenL, .dense 512 "relu", .dropout (1/2),
   .dense num_classes "softmax"]

/-- Cell 19: the artificial expert is built with `orig_classes` outputs,
large or small depending on `use_large_experts`. -/
def artificialVGG (use_large_experts : Bool) : List LayerSpec :=
  if use_large_experts then fatVGG orig_classes else simpleVGG orig_classes

/-- Cell 19: the natural expert is built with `orig_classes` outputs, large
or small depending on `use_large_experts`. -/
def naturalVGG (use_large_experts : Bool) : List LayerSpec :=
  if use_large_experts then fatVGG orig_classes else simpleVGG orig_classes

/-- Cell 19: the baseline classifier is built with `orig_classes` outputs,
large or small depending on `use_large_baseline_classifier`. -/
def baseVGG (use_large_baseline_classifier : Bool) : List LayerSpec :=
  if use_large_baseline_classifier then fatVGG orig_classes
  else simpleVGG orig_classes

/-- The output layer of a layer sequence: its last layer. -/
def outputLayer (ls : List LayerSpec) : Option LayerSpec := ls.getLast?

/-- C10: whatever the large/small flags, both experts are constructed with a
full `orig_classes`-way (10-way) softmax output layer, identical to the
baseline's output layer, so all sub-models feeding the mixture produce
length-10 class vectors whose positions align with the baseline's class
indices and the per-class blend `subGateLambda` (a map on `Vec orig_classes`)
is well-typed on their outputs. -/
theorem experts_full_output (use_large_experts use_large_baseline : Bool) :
    outputLayer (artificialVGG use_large_experts)
      = some (.dense orig_classes "softmax") ∧
    outputLayer (naturalVGG use_large_experts)
      = some (.dense orig_classes "softmax") ∧
    outputLayer (baseVGG use_large_baseline)
      = some (.dense orig_classes "softmax") ∧
    outputLayer (artificialVGG use_large_experts)
      = outputLayer (baseVGG use_large_baseline) ∧
    orig_classes = 10 ∧
    (∀ (b e : Vec orig_classes) (t : SubGateTensor) (c : Fin orig_classes),
      subGateLambda b e t c = b c * t c 0 + e c * t c 1) := by
  cases use_large_experts <;> cases use_large_baseline <;>
    exact ⟨rfl, rfl, rfl, rfl, rfl, fun b e t c => rfl⟩
